import Mathlib

/-!
# Verification of the bidirectional product reconciliation core

Shallow embedding of the reconciliation algorithm of the Shopify product
sync application: the change detector (`detectChanges`), the unconditional
local-overwrite step (`saveProductsToDB`), the inventory push
(`syncInventoryToShopify`), the per-store listing (`getAllProducts`) and the
orchestrating action (`runAction`, phases 1-5 of the `admin.products`
action).

JavaScript conventions are made explicit:
* `undefined`/`null` become `Option`;
* JS `x || d` on strings/integers becomes `jsOrStr`/`jsOrInt`
  (`""`, `0`, `null`, `undefined` are falsy);
* `String.prototype.split(sep)` for a one-character separator becomes
  `jsSplit` over `List Char`, and `.pop()` on its (always non-empty) result
  becomes `jsLast`;
* the MySQL `products` table becomes a `DBState`: a list of rows plus the
  `AUTO_INCREMENT` counter; `SELECT`/`UPDATE`/`INSERT` become
  filter/map/append.  Timestamp columns (`created_at`, `updated_at`) and the
  constant `type` tags on deltas are not modelled; no claim mentions them.
* the outcome of an individual remote push call is an oracle
  `Nat → PushOutcome` (success / returned failure / thrown exception),
  indexed by call position, so that theorems can quantify over every
  assignment of per-call outcomes.
-/

/-- JS `a || d` for string-valued fields (`undefined`, `null` and `""` are
falsy). -/
def jsOrStr (o : Option String) (d : String) : String :=
  match o with
  | none => d
  | some s => if s = "" then d else s

/-- JS `a || d` for integer-valued fields (`undefined`, `null` and `0` are
falsy). -/
def jsOrInt (o : Option Int) (d : Int) : Int :=
  match o with
  | none => d
  | some n => if n = 0 then d else n

/-- Embedding of JS `String.prototype.split` with a one-character separator,
over the character list: `"a/b".split('/') = ["a","b"]`, `"".split('/') =
[""]`, `"/".split('/') = ["",""]`. -/
def jsSplit (c : Char) : List Char → List (List Char)
  | [] => [[]]
  | x :: xs =>
    let r := jsSplit c xs
    if x = c then [] :: r
    else (x :: r.headD []) :: r.tail

/-- JS `Array.prototype.pop()` as used on the (always non-empty) result of
`split`: the last element. -/
def jsLast : List (List Char) → List Char
  | [] => []
  | [a] => a
  | _ :: b :: t => jsLast (b :: t)

/-- A row of the `products` table.  `shopify_id` and `inventory_quantity`
are the two columns the source code guards against `NULL`; the remaining
columns are always written by the application. -/
structure DBProduct where
  id : Nat
  shopify_id : Option String
  title : String
  description : String
  image_url : String
  product_condition : String
  brand : String
  size : String
  price : String
  inventory_quantity : Option Int
  store_domain : String
deriving DecidableEq, Repr

/-- One processed remote product (`productEdge.node` after the extraction
capability added `condition`/`brand`/`size`/`price`/`inventory`/`mainImage`).
`id` is the raw remote global id (possibly path-style), `none` when absent. -/
structure ShopifyNode where
  id : Option String
  title : String
  description : Option String
  mainImage : Option String
  condition : Option String
  brand : Option String
  size : Option String
  price : Option String
  inventory : Option Int
deriving DecidableEq, Repr

/-- One element of the remote snapshot (`products.edges[i]`). -/
structure ShopifyEdge where
  node : ShopifyNode
deriving DecidableEq, Repr

/-- A title delta (`titleChanges` entry of `detectChanges`). -/
structure TitleChange where
  dbProductId : Nat
  shopifyId : String
  dbTitle : String
  shopifyTitle : String
deriving DecidableEq, Repr

/-- An inventory delta (`inventoryChanges` entry of `detectChanges`). -/
structure InventoryChange where
  dbProductId : Nat
  shopifyId : String
  dbInventory : Int
  shopifyInventory : Int
deriving DecidableEq, Repr

/-- The remote-id normalization performed inside `detectChanges`'s `find`
callback: `let shopifyId = sp.node.id; if (shopifyId &&
shopifyId.includes('/')) shopifyId = shopifyId.split('/').pop();`. -/
def detectNormalize (o : Option String) : Option String :=
  match o with
  | none => none
  | some s =>
    some (if (s != "") && s.toList.contains '/'
          then String.mk (jsLast (jsSplit '/' s.toList)) else s)

/-- The identical remote-id normalization performed at the top of the
per-record loop of `saveProductsToDB`. -/
def saveNormalize (o : Option String) : Option String :=
  match o with
  | none => none
  | some s =>
    some (if (s != "") && s.toList.contains '/'
          then String.mk (jsLast (jsSplit '/' s.toList)) else s)

/-- `saveProductsToDB`'s subsequent truthiness check `if (!shopifyId)`:
the key actually used for the upsert, `none` when the record is counted as
an error instead. -/
def extractTruthy (o : Option String) : Option String :=
  match saveNormalize o with
  | none => none
  | some s => if s = "" then none else some s

/-- Per-record body of `detectChanges`: skip records with a falsy
`shopify_id`, match the first remote record whose normalized id equals it,
then compare title (exact string) and inventory (exact integer, missing
treated as `0`). -/
def detectRecord (sps : List ShopifyEdge) (dbP : DBProduct) :
    List TitleChange × List InventoryChange :=
  match dbP.shopify_id with
  | none => ([], [])
  | some sid =>
    if sid = "" then ([], [])
    else
      match sps.find? (fun sp => detectNormalize sp.node.id == some sid) with
      | none => ([], [])
      | some sp =>
        let dbTitle := dbP.title
        let shopifyTitle := sp.node.title
        let dbInventory := jsOrInt dbP.inventory_quantity 0
        let shopifyInventory := jsOrInt sp.node.inventory 0
        let ts :=
          if dbTitle = shopifyTitle then []
          else [⟨dbP.id, sid, dbTitle, shopifyTitle⟩]
        let is :=
          if dbInventory = shopifyInventory then []
          else [⟨dbP.id, sid, dbInventory, shopifyInventory⟩]
        (ts, is)

/-- Embedding of `detectChanges(dbProducts, shopifyProducts, storeDomain)`
(the store domain is only interpolated into log lines). -/
def detectChanges (dbProducts : List DBProduct) (shopifyProducts : List ShopifyEdge)
    (storeDomain : String) : List TitleChange × List InventoryChange :=
  match dbProducts with
  | [] => ([], [])
  | dbP :: rest =>
    let cur := detectRecord shopifyProducts dbP
    let r := detectChanges rest shopifyProducts storeDomain
    (cur.1 ++ r.1, cur.2 ++ r.2)

/-- The `products` table plus its `AUTO_INCREMENT` counter. -/
structure DBState where
  rows : List DBProduct
  nextId : Nat
deriving DecidableEq, Repr

/-- The `WHERE shopify_id = ? AND store_domain = ?` predicate used by the
`SELECT`/`UPDATE` statements of `saveProductsToDB`. -/
def keyMatch (sid : String) (storeDomain : String) (r : DBProduct) : Bool :=
  r.shopify_id == some sid && r.store_domain == storeDomain

/-- The column values written by both the `UPDATE` and the `INSERT` of
`saveProductsToDB` (same JS `||` defaulting in both statements). -/
def applyNode (p : ShopifyNode) (r : DBProduct) : DBProduct :=
  { r with
    title := p.title
    description := jsOrStr p.description ""
    image_url := jsOrStr p.mainImage ""
    product_condition := jsOrStr p.condition "Unknown"
    brand := jsOrStr p.brand "Luxury Brand"
    size := jsOrStr p.size "One Size"
    price := jsOrStr p.price "Price not available"
    inventory_quantity := some (jsOrInt p.inventory 0) }

/-- The freshly inserted row of `saveProductsToDB`'s `INSERT` branch. -/
def newRow (nextId : Nat) (sid : String) (storeDomain : String)
    (p : ShopifyNode) : DBProduct :=
  applyNode p
    { id := nextId, shopify_id := some sid, title := "", description := ""
      image_url := "", product_condition := "", brand := "", size := ""
      price := "", inventory_quantity := none, store_domain := storeDomain }

/-- Accumulated result of `saveProductsToDB`: the table state plus the
counters and change logs the function returns. -/
structure SaveAcc where
  st : DBState
  saved : Nat
  updated : Nat
  errors : Nat
  titleChanges : List (String × String × String)
  inventoryChanges : List (Int × Int × String)
deriving DecidableEq, Repr

/-- One iteration of `saveProductsToDB`'s per-record loop: extract the id
(falsy id counts as an error and continues), `SELECT` by
`(shopify_id, store_domain)`, then `UPDATE` every matching row or `INSERT` a
new one, recording title/inventory transitions against the previously
stored row. -/
def saveStep (storeDomain : String) (acc : SaveAcc) (pe : ShopifyEdge) : SaveAcc :=
  let p := pe.node
  match extractTruthy p.id with
  | none => { acc with errors := acc.errors + 1 }
  | some sid =>
    match acc.st.rows.filter (keyMatch sid storeDomain) with
    | [] =>
      { acc with
        st := { rows := acc.st.rows ++ [newRow acc.st.nextId sid storeDomain p]
                nextId := acc.st.nextId + 1 }
        saved := acc.saved + 1 }
    | existingProduct :: _ =>
      let oldTitle := existingProduct.title
      let newTitle := p.title
      let oldInventory := jsOrInt existingProduct.inventory_quantity 0
      let newInventory := jsOrInt p.inventory 0
      { acc with
        st := { acc.st with
                rows := acc.st.rows.map
                  (fun r => if keyMatch sid storeDomain r then applyNode p r else r) }
        updated := acc.updated + 1
        titleChanges :=
          if oldTitle = newTitle then acc.titleChanges
          else acc.titleChanges ++ [(oldTitle, newTitle, sid)]
        inventoryChanges :=
          if oldInventory = newInventory then acc.inventoryChanges
          else acc.inventoryChanges ++ [(oldInventory, newInventory, sid)] }

/-- Embedding of `saveProductsToDB(products, storeDomain)`: the
unconditional Shopify-to-local overwrite step. -/
def saveProductsToDB (products : List ShopifyEdge) (storeDomain : String)
    (st : DBState) : SaveAcc :=
  products.foldl (saveStep storeDomain) ⟨st, 0, 0, 0, [], []⟩

/-- Descending insertion by `id`, modelling `ORDER BY id DESC`. -/
def insertByIdDesc (r : DBProduct) : List DBProduct → List DBProduct
  | [] => [r]
  | x :: xs => if x.id ≤ r.id then r :: x :: xs else x :: insertByIdDesc r xs

/-- Sort by `id` descending, modelling `ORDER BY id DESC`. -/
def sortByIdDesc : List DBProduct → List DBProduct
  | [] => []
  | x :: xs => insertByIdDesc x (sortByIdDesc xs)

/-- Embedding of `getAllProducts(storeDomain)`:
`SELECT * FROM products WHERE store_domain = ? ORDER BY id DESC`. -/
def getAllProducts (storeDomain : String) (st : DBState) : List DBProduct :=
  sortByIdDesc (st.rows.filter (fun r => r.store_domain == storeDomain))

/-- The `SELECT ... WHERE id = ? AND store_domain = ? LIMIT 1` lookup shared
by `syncTitleToShopify` and `syncInventoryToShopify`. -/
def lookupProduct (rows : List DBProduct) (productId : Nat)
    (storeDomain : String) : Option DBProduct :=
  (rows.filter (fun r => r.id == productId && r.store_domain == storeDomain)).head?

/-- One variant node of the `getProduct` GraphQL response
(`variants.nodes[i].inventoryItem.id`). -/
structure VariantNode where
  inventoryItemId : String
deriving DecidableEq, Repr

/-- The remote system's answer to the variant query of
`syncInventoryToShopify`: `errors` truthiness with its first message, and
`data?.product?.variants?.nodes` (absent when any link of the optional
chain is missing). -/
structure VariantsResp where
  errors : Bool
  errorMessage : Option String
  variants : Option (List VariantNode)
deriving DecidableEq, Repr

/-- The remote system's answer to the `inventorySetQuantities` mutation. -/
structure SetInvResp where
  errors : Bool
  errorMessage : Option String
  userErrors : List String
deriving DecidableEq, Repr

/-- One `(inventoryItemId, locationId, quantity)` tuple of the bulk
set-inventory call. -/
structure QuantityEntry where
  inventoryItemId : String
  locationId : String
  quantity : Int
deriving DecidableEq, Repr

/-- An outbound remote call issued by `syncInventoryToShopify`. -/
inductive RemoteCall where
  | queryVariants (gid : String)
  | setInventory (quantities : List QuantityEntry)
deriving DecidableEq, Repr

/-- The `{success, error?, variantsUpdated?}` object returned by the sync
helpers. -/
structure SyncResult where
  success : Bool
  error : Option String
  variantsUpdated : Option Nat
deriving DecidableEq, Repr

/-- The hard-coded `const locationId = "109904462187"` of
`syncInventoryToShopify`. -/
def locationIdConst : String := "109904462187"

/-- Embedding of `syncInventoryToShopify(admin, productId, storeDomain)`.
The remote system's behaviour is given by the two response values; the
second component of the result is the trace of outbound remote calls
actually issued. -/
def syncInventoryToShopify (rows : List DBProduct) (productId : Nat)
    (storeDomain : String) (vResp : VariantsResp) (sResp : SetInvResp) :
    SyncResult × List RemoteCall :=
  match lookupProduct rows productId storeDomain with
  | none =>
    (⟨false, some ("Product not found in database for store: " ++ storeDomain),
      none⟩, [])
  | some row =>
    let shopifyId := match row.shopify_id with | none => "null" | some s => s
    let inventoryQuantity := jsOrInt row.inventory_quantity 0
    let gid := "gid://shopify/Product/" ++ shopifyId
    let calls0 := [RemoteCall.queryVariants gid]
    if vResp.errors then
      (⟨false, some (jsOrStr vResp.errorMessage "API error"), none⟩, calls0)
    else
      match vResp.variants with
      | none => (⟨false, some "No variants found for product", none⟩, calls0)
      | some variants =>
        if variants.isEmpty then
          (⟨false, some "No variants found for product", none⟩, calls0)
        else
          let quantities := variants.map (fun v =>
            { inventoryItemId := v.inventoryItemId
              locationId := "gid://shopify/Location/" ++ locationIdConst
              quantity := inventoryQuantity })
          let calls := calls0 ++ [RemoteCall.setInventory quantities]
          if sResp.errors then
            (⟨false, some (jsOrStr sResp.errorMessage "API error"), none⟩, calls)
          else
            match sResp.userErrors with
            | e :: _ => (⟨false, some (jsOrStr (some e) "Sync error"), none⟩, calls)
            | [] => (⟨true, none, some quantities.length⟩, calls)

/-- Outcome of one push call in the action's loops: the helper returned
`{success: true}`, returned `{success: false}`, or threw (caught by the
loop's `try`/`catch`). -/
inductive PushOutcome where
  | ok
  | err
  | exn
deriving DecidableEq, Repr

/-- The action's per-delta push loop (steps 3 and 4 of the bidirectional
sync): the `i`-th call's outcome is `outs i`; a success increments the
success counter, anything else increments the error counter, and the loop
always continues with the next delta.  Returns
`(syncSuccess, syncErrors)`. -/
def pushLoop {α : Type} (outs : Nat → PushOutcome) : List α → Nat → Nat × Nat
  | [], _ => (0, 0)
  | _ :: rest, i =>
    let r := pushLoop outs rest (i + 1)
    match outs i with
    | .ok => (r.1 + 1, r.2)
    | .err => (r.1, r.2 + 1)
    | .exn => (r.1, r.2 + 1)

/-- The aggregate object the action returns to the caller. -/
structure ActionResult where
  success : Bool
  titleSynced : Nat
  inventorySynced : Nat
  pushErrors : Nat
  saved : Nat
  updated : Nat
  saveErrors : Nat
deriving DecidableEq, Repr

/-- Embedding of phases 1-5 of the reconciliation action: fetch the local
snapshot, detect deltas against the (already fetched and classified) remote
snapshot, push title deltas, push inventory deltas (per-call outcomes given
by the oracles), then unconditionally overwrite the local store from the
remote snapshot and return one aggregate result. -/
def runAction (st : DBState) (storeDomain : String)
    (products : List ShopifyEdge) (tOut iOut : Nat → PushOutcome) :
    ActionResult × DBState :=
  let dbProducts := getAllProducts storeDomain st
  let changes := detectChanges dbProducts products storeDomain
  let tRes := pushLoop tOut changes.1 0
  let iRes := pushLoop iOut changes.2 0
  let saveRes := saveProductsToDB products storeDomain st
  (⟨true, tRes.1, iRes.1, tRes.2 + iRes.2,
    saveRes.saved, saveRes.updated, saveRes.errors⟩, saveRes.st)

/-- Does the remote call hit the set-inventory endpoint? -/
def isSetInventory : RemoteCall → Bool
  | .setInventory _ => true
  | .queryVariants _ => false

/-- The fields of a stored row that the overwrite step copies from a remote
record (with the `||` defaults of the SQL statements). -/
def rowCarries (p : ShopifyNode) (r : DBProduct) : Bool :=
  r.title == p.title &&
  r.description == jsOrStr p.description "" &&
  r.image_url == jsOrStr p.mainImage "" &&
  r.product_condition == jsOrStr p.condition "Unknown" &&
  r.brand == jsOrStr p.brand "Luxury Brand" &&
  r.size == jsOrStr p.size "One Size" &&
  r.price == jsOrStr p.price "Price not available" &&
  r.inventory_quantity == some (jsOrInt p.inventory 0)

/-- The last record of the remote snapshot whose truthy extracted
external id is `sid` (the record whose values the overwrite step leaves
behind when several remote records share one extracted id). -/
def lastRemoteWithId (products : List ShopifyEdge) (sid : String) :
    Option ShopifyEdge :=
  (products.filter (fun pe => extractTruthy pe.node.id == some sid)).getLast?

/-- Spec-side definition (from the spec's words, for comparison with the
code's extraction): "the substring after the last path separator" — the
longest suffix free of `'/'`. -/
def afterLastSlashSpec (s : String) : String :=
  String.mk ((s.toList.reverse.takeWhile (fun ch => ch != '/')).reverse)

/-- Builds a concrete remote record for witnesses and counterexamples. -/
def mkEdge (i : Option String) (t : String) (inv : Option Int) : ShopifyEdge :=
  ⟨{ id := i, title := t, description := none, mainImage := none,
     condition := none, brand := none, size := none, price := none,
     inventory := inv }⟩

/-- Builds a concrete local row for witnesses and counterexamples. -/
def mkRow (n : Nat) (sid : Option String) (t : String) (inv : Option Int)
    (dom : String) : DBProduct :=
  { id := n, shopify_id := sid, title := t, description := "", image_url := "",
    product_condition := "", brand := "", size := "", price := "",
    inventory_quantity := inv, store_domain := dom }

/-!  ## Generic list lemmas -/

lemma takeWhile_all_eq {α : Type} (p : α → Bool) :
    ∀ l : List α, (∀ a ∈ l, p a = true) → l.takeWhile p = l := by
  intro l
  induction l with
  | nil => intro _; rfl
  | cons x xs ih =>
    intro h
    have hx : p x = true := h x (List.mem_cons_self x xs)
    simp only [List.takeWhile_cons, hx, if_true]
    rw [ih (fun a ha => h a (List.mem_cons_of_mem x ha))]

lemma takeWhile_append_of_exists_false {α : Type} (p : α → Bool) :
    ∀ (l₁ l₂ : List α), (∃ a ∈ l₁, p a = false) →
      (l₁ ++ l₂).takeWhile p = l₁.takeWhile p := by
  intro l₁
  induction l₁ with
  | nil => intro l₂ h; obtain ⟨a, ha, _⟩ := h; exact absurd ha (List.not_mem_nil a)
  | cons x xs ih =>
    intro l₂ h
    by_cases hx : p x = true
    · simp only [List.cons_append, List.takeWhile_cons, hx, if_true]
      obtain ⟨a, ha, hpa⟩ := h
      rcases List.mem_cons.mp ha with rfl | ha'
      · rw [hx] at hpa; exact absurd hpa (by simp)
      · rw [ih l₂ ⟨a, ha', hpa⟩]
    · have hx' : p x = false := Bool.eq_false_iff.mpr hx
      simp [List.cons_append, List.takeWhile_cons, hx']

lemma takeWhile_append_singleton_of_all {α : Type} (p : α → Bool) (a : α)
    (ha : p a = false) :
    ∀ l : List α, (∀ b ∈ l, p b = true) → (l ++ [a]).takeWhile p = l := by
  intro l
  induction l with
  | nil => intro _; simp [List.takeWhile_cons, ha]
  | cons x xs ih =>
    intro h
    have hx : p x = true := h x (List.mem_cons_self x xs)
    simp only [List.cons_append, List.takeWhile_cons, hx, if_true]
    rw [ih (fun b hb => h b (List.mem_cons_of_mem x hb))]

lemma takeWhile_append_singleton_false {α : Type} (p : α → Bool) (l : List α)
    (a : α) (ha : p a = false) : (l ++ [a]).takeWhile p = l.takeWhile p := by
  by_cases h : ∀ b ∈ l, p b = true
  · rw [takeWhile_append_singleton_of_all p a ha l h, takeWhile_all_eq p l h]
  · push_neg at h
    obtain ⟨b, hb, hpb⟩ := h
    exact takeWhile_append_of_exists_false p l [a] ⟨b, hb, Bool.eq_false_iff.mpr hpb⟩

lemma filter_map_invariant {α : Type} (f : α → α) (q : α → Bool)
    (hq : ∀ x, q (f x) = q x) (hid : ∀ x, q x = true → f x = x) :
    ∀ l : List α, (l.map f).filter q = l.filter q := by
  intro l
  induction l with
  | nil => rfl
  | cons x xs ih =>
    simp only [List.map_cons, List.filter_cons]
    cases hx : q x with
    | true => rw [hq x, hx, hid x hx, ih]
    | false => rw [hq x, hx, ih]; simp

lemma filter_map_comm {α : Type} (f : α → α) (q : α → Bool)
    (hq : ∀ x, q (f x) = q x) :
    ∀ l : List α, (l.map f).filter q = (l.filter q).map f := by
  intro l
  induction l with
  | nil => rfl
  | cons x xs ih =>
    simp only [List.map_cons, List.filter_cons]
    cases hx : q x with
    | true => rw [hq x, hx, ih]; simp
    | false => rw [hq x, hx, ih]; simp

/-!  ## Lemmas about the JS split/pop embedding -/

lemma jsSplit_ne_nil (c : Char) : ∀ l : List Char, jsSplit c l ≠ [] := by
  intro l
  cases l with
  | nil => simp [jsSplit]
  | cons x xs =>
    unfold jsSplit
    by_cases hx : x = c <;> simp [hx]

lemma jsSplit_of_not_mem (c : Char) :
    ∀ l : List Char, c ∉ l → jsSplit c l = [l] := by
  intro l
  induction l with
  | nil => intro _; rfl
  | cons x xs ih =>
    intro h
    have hx : x ≠ c := fun he => h (he ▸ List.mem_cons_self x xs)
    have hxs : c ∉ xs := fun hm => h (List.mem_cons_of_mem x hm)
    simp [jsSplit, hx, ih hxs]

lemma jsSplit_two_of_mem (c : Char) :
    ∀ l : List Char, c ∈ l → ∃ a b t, jsSplit c l = a :: b :: t := by
  intro l
  induction l with
  | nil => intro h; exact absurd h (List.not_mem_nil c)
  | cons x xs ih =>
    intro h
    by_cases hx : x = c
    · obtain ⟨y, t, hr⟩ : ∃ y t, jsSplit c xs = y :: t := by
        cases hr : jsSplit c xs with
        | nil => exact absurd hr (jsSplit_ne_nil c xs)
        | cons y t => exact ⟨y, t, rfl⟩
      refine ⟨[], y, t, ?_⟩
      simp [jsSplit, hx, hr]
    · have hxs : c ∈ xs := by
        rcases List.mem_cons.mp h with he | hm
        · exact absurd he.symm hx
        · exact hm
      obtain ⟨a, b, t, hr⟩ := ih hxs
      refine ⟨x :: a, b, t, ?_⟩
      simp [jsSplit, hx, hr]

lemma jsLast_cons_of_ne_nil : ∀ (a : List Char) (l : List (List Char)),
    l ≠ [] → jsLast (a :: l) = jsLast l := by
  intro a l h
  cases l with
  | nil => exact absurd rfl h
  | cons b t => rfl

/-- The embedded `split('/').pop()` composite computes exactly the suffix of
the character list after its last separator occurrence (the whole list when
the separator does not occur). -/
lemma jsLast_jsSplit (c : Char) :
    ∀ l : List Char,
      jsLast (jsSplit c l) = (l.reverse.takeWhile (fun x => x != c)).reverse := by
  intro l
  induction l with
  | nil => rfl
  | cons x xs ih =>
    by_cases hx : x = c
    · subst hx
      have hr : jsSplit x (x :: xs) = [] :: jsSplit x xs := by
        simp [jsSplit]
      rw [hr, jsLast_cons_of_ne_nil _ _ (jsSplit_ne_nil x xs), ih,
          List.reverse_cons,
          takeWhile_append_singleton_false _ _ _ (by simp)]
    · by_cases hc : c ∈ xs
      · obtain ⟨a, b, t, hr⟩ := jsSplit_two_of_mem c xs hc
        have h1 : jsSplit c (x :: xs) = (x :: a) :: b :: t := by
          simp [jsSplit, hx, hr]
        have h2 : jsLast ((x :: a) :: b :: t) = jsLast (a :: b :: t) := rfl
        rw [h1, h2, ← hr, ih, List.reverse_cons,
            takeWhile_append_of_exists_false _ _ _
              ⟨c, List.mem_reverse.mpr hc, by simp⟩]
      · have h1 : jsSplit c (x :: xs) = [x :: xs] := by
          simp [jsSplit, hx, jsSplit_of_not_mem c xs hc]
        rw [h1]
        have hall : ∀ a ∈ (x :: xs).reverse, (a != c) = true := by
          intro a ha
          have ham : a ∈ x :: xs := List.mem_reverse.mp ha
          have : a ≠ c := by
            rcases List.mem_cons.mp ham with rfl | hm
            · exact hx
            · exact fun he => hc (he ▸ hm)
          simpa using this
        rw [takeWhile_all_eq _ _ hall, List.reverse_reverse]
        rfl

lemma toList_ne_nil_of_mem {s : String} {c : Char} (h : c ∈ s.toList) :
    (s != "") = true := by
  rcases eq_or_ne s "" with rfl | hne
  · exact absurd h (List.not_mem_nil c)
  · simpa using hne

lemma contains_iff_mem_char {l : List Char} {c : Char} :
    l.contains c = true ↔ c ∈ l := by
  simp [List.contains]

/-!  ## Lemmas about the change detector -/

lemma detectChanges_nil (sps : List ShopifyEdge) (d : String) :
    detectChanges [] sps d = ([], []) := rfl

lemma detectChanges_cons (P : DBProduct) (rest : List DBProduct)
    (sps : List ShopifyEdge) (d : String) :
    detectChanges (P :: rest) sps d =
      ((detectRecord sps P).1 ++ (detectChanges rest sps d).1,
       (detectRecord sps P).2 ++ (detectChanges rest sps d).2) := rfl

lemma detectRecord_title_mem {sps : List ShopifyEdge} {P : DBProduct}
    {dl : TitleChange} (h : dl ∈ (detectRecord sps P).1) :
    P.shopify_id = some dl.shopifyId ∧ dl.dbProductId = P.id ∧
      dl.dbTitle = P.title ∧
      ∃ sp, sps.find?
          (fun sp => detectNormalize sp.node.id == some dl.shopifyId) = some sp ∧
        dl.shopifyTitle = sp.node.title ∧ dl.dbTitle ≠ dl.shopifyTitle := by
  unfold detectRecord at h
  cases hsid : P.shopify_id with
  | none => rw [hsid] at h; dsimp only [] at h; exact absurd h (List.not_mem_nil dl)
  | some sid =>
    rw [hsid] at h
    dsimp only [] at h
    by_cases hs : sid = ""
    · rw [if_pos hs] at h; exact absurd h (List.not_mem_nil dl)
    · rw [if_neg hs] at h
      cases hf : sps.find? (fun sp => detectNormalize sp.node.id == some sid) with
      | none => rw [hf] at h; dsimp only [] at h; exact absurd h (List.not_mem_nil dl)
      | some sp =>
        rw [hf] at h
        dsimp only [] at h
        by_cases ht : P.title = sp.node.title
        · simp only [if_pos ht] at h; exact absurd h (List.not_mem_nil dl)
        · simp only [if_neg ht, List.mem_singleton] at h
          subst h
          exact ⟨rfl, rfl, rfl, sp, hf, rfl, ht⟩

lemma detectRecord_inv_mem {sps : List ShopifyEdge} {P : DBProduct}
    {dl : InventoryChange} (h : dl ∈ (detectRecord sps P).2) :
    dl.dbProductId = P.id := by
  unfold detectRecord at h
  cases hsid : P.shopify_id with
  | none => rw [hsid] at h; dsimp only [] at h; exact absurd h (List.not_mem_nil dl)
  | some sid =>
    rw [hsid] at h
    dsimp only [] at h
    by_cases hs : sid = ""
    · rw [if_pos hs] at h; exact absurd h (List.not_mem_nil dl)
    · rw [if_neg hs] at h
      cases hf : sps.find? (fun sp => detectNormalize sp.node.id == some sid) with
      | none => rw [hf] at h; dsimp only [] at h; exact absurd h (List.not_mem_nil dl)
      | some sp =>
        rw [hf] at h
        dsimp only [] at h
        by_cases hi :
            jsOrInt P.inventory_quantity 0 = jsOrInt sp.node.inventory 0
        · simp only [if_pos hi] at h; exact absurd h (List.not_mem_nil dl)
        · simp only [if_neg hi, List.mem_singleton] at h
          subst h; rfl

lemma detectRecord_inv_singleton {sps : List ShopifyEdge} {P : DBProduct}
    {sid : String} {R : ShopifyEdge}
    (hsid : P.shopify_id = some sid) (hs : sid ≠ "")
    (hf : sps.find? (fun sp => detectNormalize sp.node.id == some sid) = some R)
    (hi : jsOrInt P.inventory_quantity 0 ≠ jsOrInt R.node.inventory 0) :
    (detectRecord sps P).2 =
      [⟨P.id, sid, jsOrInt P.inventory_quantity 0,
        jsOrInt R.node.inventory 0⟩] := by
  unfold detectRecord
  rw [hsid]
  dsimp only []
  rw [if_neg hs, hf]
  dsimp only []
  simp only [if_neg hi]

lemma detectChanges_inv_ids {dbs : List DBProduct} {sps : List ShopifyEdge}
    {d : String} {dl : InventoryChange}
    (h : dl ∈ (detectChanges dbs sps d).2) :
    ∃ P ∈ dbs, dl.dbProductId = P.id := by
  induction dbs with
  | nil => exact absurd h (List.not_mem_nil dl)
  | cons P rest ih =>
    rw [detectChanges_cons] at h
    rcases List.mem_append.mp h with hc | hr
    · exact ⟨P, List.mem_cons_self P rest, detectRecord_inv_mem hc⟩
    · obtain ⟨Q, hQ, he⟩ := ih hr
      exact ⟨Q, List.mem_cons_of_mem P hQ, he⟩



/-!  ## Claim C7 -/

/-- C7: for every raw remote identifier, the externalId used for matching
and storage equals the substring after the last path separator when the raw
identifier contains one, and equals the raw identifier unchanged otherwise;
the detector's matching normalization and the overwrite step's extraction
are the same function of the raw identifier. -/
theorem externalId_extraction_spec :
    (∀ s : String, saveNormalize (some s) =
        some (if s.toList.contains '/' then afterLastSlashSpec s else s)) ∧
    (∀ o : Option String, detectNormalize o = saveNormalize o) := by
  constructor
  · intro s
    by_cases hc : s.toList.contains '/' = true
    · have hmem : '/' ∈ s.toList := contains_iff_mem_char.mp hc
      have hne : (s != "") = true := toList_ne_nil_of_mem hmem
      unfold saveNormalize
      dsimp only []
      rw [hne, hc]
      simp only [Bool.and_self, if_true]
      rw [jsLast_jsSplit]
      rfl
    · have hm : '/' ∉ s.toList := fun hm => hc (contains_iff_mem_char.mpr hm)
      have hm' : '/' ∉ s.data := hm
      unfold saveNormalize
      dsimp only []
      simp [hm']
  · intro o
    cases o <;> rfl

/-!  ## Claim C4 -/

/-- C4: change detection is deterministic and side-effect-free on the
snapshots and the store: the delta sets are a function of the two snapshots
alone (independent of the ambient store-domain/logging parameter, the only
other input, so two runs on the same snapshots yield identical delta sets),
and within a reconciliation run the store state consumed by the final
overwrite phase is exactly the pre-run state — detection modifies no store
state. -/
theorem detector_deterministic_and_stateless :
    (∀ (dbs : List DBProduct) (sps : List ShopifyEdge) (d1 d2 : String),
        detectChanges dbs sps d1 = detectChanges dbs sps d2) ∧
    (∀ (st : DBState) (domain : String) (products : List ShopifyEdge)
        (tOut iOut : Nat → PushOutcome),
        (runAction st domain products tOut iOut).2 =
          (saveProductsToDB products domain st).st) := by
  constructor
  · intro dbs sps d1 d2
    induction dbs with
    | nil => rfl
    | cons P rest ih => rw [detectChanges_cons, detectChanges_cons, ih]
  · intro st domain products tOut iOut
    rfl

/-!  ## Claim C2 -/

/-- C2 (amended): if the **first** remote record whose normalized external
id is `X` carries title `T`, then the detector emits no title delta for `X`
whose local title is `T`.  (Amended from "if the remote snapshot contains a
record with externalId X and title T": with duplicate remote ids the
detector compares against the first match only, so a later duplicate with
the matching title does not suppress the delta — see the counterexample.) -/
theorem no_title_delta_when_first_match_agrees :
    ∀ (dbs : List DBProduct) (sps : List ShopifyEdge) (d X T : String),
    (∀ fm, sps.find? (fun sp => detectNormalize sp.node.id == some X) = some fm →
        fm.node.title = T) →
    (detectChanges dbs sps d).1.filter
        (fun dl => dl.shopifyId == X && dl.dbTitle == T) = [] := by
  intro dbs sps d X T h
  rw [List.filter_eq_nil_iff]
  intro dl hdl
  induction dbs with
  | nil => exact absurd hdl (List.not_mem_nil dl)
  | cons P rest ih =>
    rw [detectChanges_cons] at hdl
    rcases List.mem_append.mp hdl with hc | hr
    · obtain ⟨_, _, _, sp, hf, hst, hne⟩ := detectRecord_title_mem hc
      intro hb
      simp only [Bool.and_eq_true, beq_iff_eq] at hb
      obtain ⟨hX', hT'⟩ := hb
      rw [hX'] at hf
      have := h sp hf
      exact hne (by rw [hst, this, hT'])
    · exact ih hr

/-- C2 counterexample: the claim as stated fails.  The local store holds one
record with externalId `"7"` and title `"T"`; the remote snapshot contains
a record with externalId `"7"` and title `"T"` (its second element), yet
the detector reports a title delta for `"7"` — because it matches the
*first* remote record with id `"7"`, whose title is `"U"`. -/
theorem title_delta_despite_matching_remote :
    (mkRow 1 (some "7") "T" (some 5) "shopA").shopify_id = some "7" ∧
    (mkRow 1 (some "7") "T" (some 5) "shopA").title = "T" ∧
    (∃ sp ∈ [mkEdge (some "7") "U" (some 5), mkEdge (some "7") "T" (some 5)],
        detectNormalize sp.node.id = some "7" ∧ sp.node.title = "T") ∧
    ((detectChanges [mkRow 1 (some "7") "T" (some 5) "shopA"]
          [mkEdge (some "7") "U" (some 5), mkEdge (some "7") "T" (some 5)]
          "shopA").1.filter (fun dl => dl.shopifyId == "7")).length = 1 := by
  decide

/-- Witness for C2 (amended) at a concrete input. -/
theorem no_title_delta_when_first_match_agrees_witness :
    (detectChanges [mkRow 1 (some "7") "T" (some 5) "shopA"]
        [mkEdge (some "7") "T" (some 9)] "shopA").1.filter
        (fun dl => dl.shopifyId == "7" && dl.dbTitle == "T") = [] :=
  no_title_delta_when_first_match_agrees
    [mkRow 1 (some "7") "T" (some 5) "shopA"]
    [mkEdge (some "7") "T" (some 9)] "shopA" "7" "T" (by decide)

/-!  ## Claim C3 -/

/-- C3: for a local record `L` (unique holder of its primary-key `id` in the
local snapshot) matched on external id `sid` to the first remote record `R`,
if the local inventory differs from the remote inventory (missing remote
inventory read as 0), the detector produces exactly one inventory delta for
that pair, carrying both the local and the remote value — never
duplicates. -/
theorem inventory_delta_exactly_once :
    ∀ (dbs : List DBProduct) (sps : List ShopifyEdge) (d : String)
      (L : DBProduct) (sid : String) (R : ShopifyEdge),
    dbs.filter (fun P => P.id == L.id) = [L] →
    L.shopify_id = some sid →
    sid ≠ "" →
    sps.find? (fun sp => detectNormalize sp.node.id == some sid) = some R →
    jsOrInt L.inventory_quantity 0 ≠ jsOrInt R.node.inventory 0 →
    (detectChanges dbs sps d).2.filter (fun dl => dl.dbProductId == L.id) =
      [⟨L.id, sid, jsOrInt L.inventory_quantity 0,
        jsOrInt R.node.inventory 0⟩] := by
  intro dbs sps d L sid R hu hsid hs hf hi
  induction dbs with
  | nil => exact absurd hu (by simp)
  | cons P rest ih =>
    rw [detectChanges_cons, List.filter_append]
    rw [List.filter_cons] at hu
    cases hP : (P.id == L.id) with
    | true =>
      rw [hP] at hu
      simp only [if_true] at hu
      have hPL : P = L := (List.cons_eq_cons.mp hu).1
      have hrest : rest.filter (fun P => P.id == L.id) = [] :=
        (List.cons_eq_cons.mp hu).2
      subst hPL
      rw [detectRecord_inv_singleton hsid hs hf hi]
      have h2 : (detectChanges rest sps d).2.filter
          (fun dl => dl.dbProductId == P.id) = [] := by
        rw [List.filter_eq_nil_iff]
        intro dl hdl hb
        obtain ⟨Q, hQ, he⟩ := detectChanges_inv_ids hdl
        have hQP : Q.id = P.id := by
          have := beq_iff_eq.mp hb
          rw [← he, this]
        have hmem : Q ∈ rest.filter (fun P' => P'.id == P.id) :=
          List.mem_filter.mpr ⟨hQ, beq_iff_eq.mpr hQP⟩
        rw [hrest] at hmem
        exact absurd hmem (List.not_mem_nil Q)
      rw [h2]
      simp
    | false =>
      rw [hP] at hu
      simp only [Bool.false_eq_true, if_false] at hu
      have h1 : (detectRecord sps P).2.filter
          (fun dl => dl.dbProductId == L.id) = [] := by
        rw [List.filter_eq_nil_iff]
        intro dl hdl hb
        have he := detectRecord_inv_mem hdl
        have hPL : P.id = L.id := by rw [← he]; exact beq_iff_eq.mp hb
        have hbt : (P.id == L.id) = true := beq_iff_eq.mpr hPL
        rw [hP] at hbt
        exact Bool.false_ne_true hbt
      rw [h1, ih hu]
      rfl

/-- Witness for C3 at a concrete input. -/
theorem inventory_delta_exactly_once_witness :
    (detectChanges [mkRow 1 (some "7") "T" (some 5) "shopA"]
        [mkEdge (some "7") "T" (some 3)] "shopA").2.filter
        (fun dl => dl.dbProductId == 1) = [⟨1, "7", 5, 3⟩] :=
  inventory_delta_exactly_once
    [mkRow 1 (some "7") "T" (some 5) "shopA"]
    [mkEdge (some "7") "T" (some 3)] "shopA"
    (mkRow 1 (some "7") "T" (some 5) "shopA") "7"
    (mkEdge (some "7") "T" (some 3))
    (by decide) (by decide) (by decide) (by decide) (by decide)

/-!  ## Lemmas about the overwrite step -/

lemma keyMatch_applyNode (sid dom : String) (p : ShopifyNode) (r : DBProduct) :
    keyMatch sid dom (applyNode p r) = keyMatch sid dom r := rfl

lemma rowCarries_applyNode (p : ShopifyNode) (r : DBProduct) :
    rowCarries p (applyNode p r) = true := by
  simp [rowCarries, applyNode]

lemma saveStep_filter_frame (domain : String) (acc : SaveAcc) (pe : ShopifyEdge)
    (q : DBProduct → Bool)
    (hqa : ∀ p r, q (applyNode p r) = q r)
    (hcond : ∀ sid, extractTruthy pe.node.id = some sid →
        (∀ n, q (newRow n sid domain pe.node) = false) ∧
        (∀ r, q r = true → keyMatch sid domain r = false)) :
    (saveStep domain acc pe).st.rows.filter q = acc.st.rows.filter q := by
  unfold saveStep
  dsimp only []
  cases he : extractTruthy pe.node.id with
  | none => rfl
  | some sid =>
    dsimp only []
    obtain ⟨hnew, hdisj⟩ := hcond sid he
    cases hex : acc.st.rows.filter (keyMatch sid domain) with
    | nil =>
      dsimp only []
      rw [List.filter_append]
      have h0 : q (newRow acc.st.nextId sid domain pe.node) = false := hnew _
      simp [h0]
    | cons ex t =>
      dsimp only []
      apply filter_map_invariant
      · intro r
        by_cases hk : keyMatch sid domain r = true
        · rw [if_pos hk, hqa]
        · rw [if_neg hk]
      · intro r hr
        have hkf := hdisj r hr
        rw [if_neg (by rw [hkf]; exact Bool.false_ne_true)]

lemma saveStep_keyFilter_set (domain : String) (acc : SaveAcc) (pe : ShopifyEdge)
    (sid : String) (he : extractTruthy pe.node.id = some sid) :
    (saveStep domain acc pe).st.rows.filter (keyMatch sid domain) ≠ [] ∧
    ((saveStep domain acc pe).st.rows.filter (keyMatch sid domain)).all
      (rowCarries pe.node) = true := by
  unfold saveStep
  dsimp only []
  rw [he]
  dsimp only []
  have hq : ∀ r, keyMatch sid domain
      ((fun r => if keyMatch sid domain r then applyNode pe.node r else r) r) =
      keyMatch sid domain r := by
    intro r
    dsimp only []
    by_cases hk : keyMatch sid domain r = true
    · rw [if_pos hk, keyMatch_applyNode]
    · rw [if_neg hk]
  cases hex : acc.st.rows.filter (keyMatch sid domain) with
  | nil =>
    dsimp only []
    rw [List.filter_append, hex]
    have hkey : keyMatch sid domain (newRow acc.st.nextId sid domain pe.node) = true := by
      simp [keyMatch, newRow, applyNode]
    constructor
    · simp [hkey]
    · simp [hkey, rowCarries_applyNode, newRow]
  | cons ex t =>
    dsimp only []
    rw [filter_map_comm _ _ hq, hex]
    constructor
    · simp
    · rw [List.all_eq_true]
      intro x hx
      obtain ⟨y, hy, hxy⟩ := List.mem_map.mp hx
      have hky : keyMatch sid domain y = true := by
        have : y ∈ acc.st.rows.filter (keyMatch sid domain) := by rw [hex]; exact hy
        exact List.of_mem_filter this
      rw [← hxy, if_pos hky]
      exact rowCarries_applyNode pe.node y

lemma saveFold_filter_frame (domain : String) (q : DBProduct → Bool)
    (hqa : ∀ p r, q (applyNode p r) = q r) :
    ∀ (products : List ShopifyEdge) (acc : SaveAcc),
    (∀ pe ∈ products, ∀ sid, extractTruthy pe.node.id = some sid →
        (∀ n, q (newRow n sid domain pe.node) = false) ∧
        (∀ r, q r = true → keyMatch sid domain r = false)) →
    (products.foldl (saveStep domain) acc).st.rows.filter q =
      acc.st.rows.filter q := by
  intro products
  induction products with
  | nil => intro acc _; rfl
  | cons pe rest ih =>
    intro acc h
    rw [List.foldl_cons,
        ih (saveStep domain acc pe)
          (fun pe' hpe' => h pe' (List.mem_cons_of_mem pe hpe')),
        saveStep_filter_frame domain acc pe q hqa
          (h pe (List.mem_cons_self pe rest))]

lemma lastRemoteWithId_cons_of_ne {pe : ShopifyEdge} {sid : String}
    (rest : List ShopifyEdge) (h : extractTruthy pe.node.id ≠ some sid) :
    lastRemoteWithId (pe :: rest) sid = lastRemoteWithId rest sid := by
  unfold lastRemoteWithId
  rw [List.filter_cons]
  have hb : (extractTruthy pe.node.id == some sid) = false :=
    beq_eq_false_iff_ne.mpr h
  simp only [hb, Bool.false_eq_true, if_false]

lemma saveFold_last (domain : String) :
    ∀ (products : List ShopifyEdge) (acc : SaveAcc) (sid : String)
      (q : ShopifyEdge),
    lastRemoteWithId products sid = some q →
    (products.foldl (saveStep domain) acc).st.rows.filter
        (keyMatch sid domain) ≠ [] ∧
    ((products.foldl (saveStep domain) acc).st.rows.filter
        (keyMatch sid domain)).all (rowCarries q.node) = true := by
  intro products
  induction products with
  | nil =>
    intro acc sid q h
    exact absurd h (by simp [lastRemoteWithId])
  | cons pe rest ih =>
    intro acc sid q h
    by_cases hpe : extractTruthy pe.node.id = some sid
    · cases hrest : lastRemoteWithId rest sid with
      | some q2 =>
        have hne : rest.filter
            (fun pe => extractTruthy pe.node.id == some sid) ≠ [] := by
          intro h0
          unfold lastRemoteWithId at hrest
          rw [h0] at hrest
          exact Option.noConfusion hrest
        have hcons : lastRemoteWithId (pe :: rest) sid = some q2 := by
          unfold lastRemoteWithId at hrest ⊢
          rw [List.filter_cons, if_pos (beq_iff_eq.mpr hpe)]
          cases hl : rest.filter
              (fun pe => extractTruthy pe.node.id == some sid) with
          | nil => exact absurd hl hne
          | cons a l =>
            rw [hl] at hrest
            rw [List.getLast?_cons_cons, hrest]
        rw [hcons] at h
        injection h with h
        subst h
        rw [List.foldl_cons]
        exact ih (saveStep domain acc pe) sid q2 hrest
      | none =>
        have hfe : rest.filter
            (fun pe => extractTruthy pe.node.id == some sid) = [] := by
          unfold lastRemoteWithId at hrest
          cases hl : rest.filter
              (fun pe => extractTruthy pe.node.id == some sid) with
          | nil => rfl
          | cons a l =>
            rw [hl] at hrest
            rw [List.getLast?_cons] at hrest
            exact Option.noConfusion hrest
        have hqpe : q = pe := by
          unfold lastRemoteWithId at h
          rw [List.filter_cons, if_pos (beq_iff_eq.mpr hpe), hfe] at h
          simp at h
          exact h.symm
        rw [List.foldl_cons]
        have hframe := saveFold_filter_frame domain (keyMatch sid domain)
          (keyMatch_applyNode sid domain) rest (saveStep domain acc pe) ?_
        · rw [hframe, hqpe]
          exact saveStep_keyFilter_set domain acc pe sid hpe
        · intro pe' hpe' sid' he'
          have hne' : sid' ≠ sid := by
            intro h0
            subst h0
            have hb0 : (extractTruthy pe'.node.id == some sid') = false := by
              have := List.filter_eq_nil_iff.mp hfe pe' hpe'
              exact Bool.eq_false_iff.mpr this
            rw [he'] at hb0
            simp at hb0
          have hne2 : sid ≠ sid' := Ne.symm hne'
          constructor
          · intro n
            simp [keyMatch, newRow, applyNode, hne']
          · intro r hr
            have hsid : r.shopify_id = some sid := by
              simp only [keyMatch, Bool.and_eq_true, beq_iff_eq] at hr
              exact hr.1
            simp [keyMatch, hsid, hne2]
    · rw [lastRemoteWithId_cons_of_ne rest hpe] at h
      rw [List.foldl_cons]
      exact ih (saveStep domain acc pe) sid q h

/-!  ## Claim C1 -/

/-- C1 (amended): after a full reconciliation run — for any prior local
state and any per-call push outcomes — for every truthy extracted external
id `sid` occurring in the remote snapshot, the Local Store holds a row
keyed `(storeDomain, sid)`, and every such row carries the field values
(title, description, image, condition, brand, size, price, inventory) of
the **last** remote record in the snapshot with that extracted id.
(Amended from "carries that remote record's field values" for *every*
remote record: when several remote records share one extracted id, the
per-record upsert leaves the values of the last one — see the
counterexample.) -/
theorem overwrite_converges_to_last_remote :
    ∀ (st : DBState) (domain : String) (products : List ShopifyEdge)
      (tOut iOut : Nat → PushOutcome) (sid : String) (q : ShopifyEdge),
    lastRemoteWithId products sid = some q →
    ((runAction st domain products tOut iOut).2.rows.filter
        (keyMatch sid domain) ≠ [] ∧
     ((runAction st domain products tOut iOut).2.rows.filter
        (keyMatch sid domain)).all (rowCarries q.node) = true) := by
  intro st domain products tOut iOut sid q h
  have hrw : (runAction st domain products tOut iOut).2 =
      (products.foldl (saveStep domain) ⟨st, 0, 0, 0, [], []⟩).st := rfl
  rw [hrw]
  exact saveFold_last domain products ⟨st, 0, 0, 0, [], []⟩ sid q h

/-- C1 counterexample: the claim as stated fails.  The remote snapshot
contains two records with extracted external id `"1"`; after the run the
single stored row for that key carries the title of the second record, not
of the first — so the row does not carry "that remote record's field
values" for the first record. -/
theorem overwrite_drops_shadowed_remote_record :
    extractTruthy (mkEdge (some "1") "TitleA" (some 2)).node.id = some "1" ∧
    mkEdge (some "1") "TitleA" (some 2) ∈
      [mkEdge (some "1") "TitleA" (some 2),
       mkEdge (some "1") "TitleB" (some 3)] ∧
    (mkEdge (some "1") "TitleA" (some 2)).node.title = "TitleA" ∧
    ((runAction ⟨[], 1⟩ "shopA"
        [mkEdge (some "1") "TitleA" (some 2),
         mkEdge (some "1") "TitleB" (some 3)]
        (fun _ => PushOutcome.ok) (fun _ => PushOutcome.ok)).2.rows.filter
        (keyMatch "1" "shopA")).all (fun r => r.title == "TitleA") = false := by
  decide

/-- Witness for C1 (amended) at a concrete input. -/
theorem overwrite_converges_to_last_remote_witness :
    ((runAction ⟨[], 1⟩ "shopA"
        [mkEdge (some "1") "TitleA" (some 2),
         mkEdge (some "1") "TitleB" (some 3)]
        (fun _ => PushOutcome.ok) (fun _ => PushOutcome.ok)).2.rows.filter
        (keyMatch "1" "shopA") ≠ [] ∧
     ((runAction ⟨[], 1⟩ "shopA"
        [mkEdge (some "1") "TitleA" (some 2),
         mkEdge (some "1") "TitleB" (some 3)]
        (fun _ => PushOutcome.ok) (fun _ => PushOutcome.ok)).2.rows.filter
        (keyMatch "1" "shopA")).all
        (rowCarries (mkEdge (some "1") "TitleB" (some 3)).node) = true) :=
  overwrite_converges_to_last_remote ⟨[], 1⟩ "shopA"
    [mkEdge (some "1") "TitleA" (some 2), mkEdge (some "1") "TitleB" (some 3)]
    (fun _ => PushOutcome.ok) (fun _ => PushOutcome.ok) "1"
    (mkEdge (some "1") "TitleB" (some 3)) (by decide)

/-!  ## Claim C6 -/

/-- C6: a reconciliation run never deletes local records based on remote
absence: an empty remote snapshot produces no deltas and leaves the Local
Store exactly as it was, and any local row whose key matches no truthy
extracted remote external id still exists, unchanged, after the run. -/
theorem absence_never_deletes :
    (∀ (dbs : List DBProduct) (d : String), detectChanges dbs [] d = ([], [])) ∧
    (∀ (st : DBState) (domain : String) (tOut iOut : Nat → PushOutcome),
        (runAction st domain [] tOut iOut).2 = st) ∧
    (∀ (st : DBState) (domain : String) (products : List ShopifyEdge)
        (tOut iOut : Nat → PushOutcome) (r : DBProduct),
        r ∈ st.rows →
        (∀ pe ∈ products, ∀ s, extractTruthy pe.node.id = some s →
            r.shopify_id ≠ some s) →
        r ∈ (runAction st domain products tOut iOut).2.rows ∧
        (runAction st domain products tOut iOut).2.rows.filter
            (fun x => x.shopify_id == r.shopify_id &&
              x.store_domain == r.store_domain) =
          st.rows.filter
            (fun x => x.shopify_id == r.shopify_id &&
              x.store_domain == r.store_domain)) := by
  refine ⟨?_, ?_, ?_⟩
  · intro dbs d
    induction dbs with
    | nil => rfl
    | cons P rest ih =>
      rw [detectChanges_cons, ih]
      have hrec : detectRecord [] P = ([], []) := by
        unfold detectRecord
        cases P.shopify_id with
        | none => rfl
        | some sid =>
          dsimp only []
          by_cases hs : sid = ""
          · rw [if_pos hs]
          · rw [if_neg hs]; rfl
      rw [hrec]
      rfl
  · intro st domain tOut iOut
    rfl
  · intro st domain products tOut iOut r hr habs
    have hrw : (runAction st domain products tOut iOut).2 =
        (products.foldl (saveStep domain) ⟨st, 0, 0, 0, [], []⟩).st := rfl
    have hq : ∀ (p : ShopifyNode) (x : DBProduct),
        (x.shopify_id == r.shopify_id && x.store_domain == r.store_domain) =
          ((applyNode p x).shopify_id == r.shopify_id &&
            (applyNode p x).store_domain == r.store_domain) := by
      intro p x; rfl
    have hframe := saveFold_filter_frame domain
      (fun x => x.shopify_id == r.shopify_id &&
        x.store_domain == r.store_domain)
      (fun p x => (hq p x).symm) products ⟨st, 0, 0, 0, [], []⟩ ?_
    · constructor
      · have hself : (fun x => x.shopify_id == r.shopify_id &&
            x.store_domain == r.store_domain) r = true := by simp
        have h1 : r ∈ st.rows.filter
            (fun x => x.shopify_id == r.shopify_id &&
              x.store_domain == r.store_domain) :=
          List.mem_filter.mpr ⟨hr, hself⟩
        rw [hrw]
        rw [← hframe] at h1
        exact List.mem_of_mem_filter h1
      · rw [hrw]
        exact hframe
    · intro pe hpe s hs
      have hne : r.shopify_id ≠ some s := habs pe hpe s hs
      constructor
      · intro n
        have : (newRow n s domain pe.node).shopify_id = some s := rfl
        simp [this, Ne.symm hne]
      · intro x hx
        simp only [Bool.and_eq_true, beq_iff_eq] at hx
        simp [keyMatch, hx.1, hne]

/-- Witness for C6 (its quantified parts applied at concrete inputs). -/
theorem absence_never_deletes_witness :
    detectChanges [mkRow 1 (some "9") "Keep" (some 4) "shopA"] [] "shopA" =
      ([], []) ∧
    (runAction ⟨[mkRow 1 (some "9") "Keep" (some 4) "shopA"], 2⟩ "shopA" []
        (fun _ => PushOutcome.ok) (fun _ => PushOutcome.ok)).2 =
      ⟨[mkRow 1 (some "9") "Keep" (some 4) "shopA"], 2⟩ ∧
    mkRow 1 (some "9") "Keep" (some 4) "shopA" ∈
      (runAction ⟨[mkRow 1 (some "9") "Keep" (some 4) "shopA"], 2⟩ "shopA"
          [mkEdge (some "1") "New" (some 3)]
          (fun _ => PushOutcome.ok) (fun _ => PushOutcome.ok)).2.rows :=
  ⟨absence_never_deletes.1 [mkRow 1 (some "9") "Keep" (some 4) "shopA"] "shopA",
   absence_never_deletes.2.1 ⟨[mkRow 1 (some "9") "Keep" (some 4) "shopA"], 2⟩
     "shopA" (fun _ => PushOutcome.ok) (fun _ => PushOutcome.ok),
   (absence_never_deletes.2.2 ⟨[mkRow 1 (some "9") "Keep" (some 4) "shopA"], 2⟩
     "shopA" [mkEdge (some "1") "New" (some 3)]
     (fun _ => PushOutcome.ok) (fun _ => PushOutcome.ok)
     (mkRow 1 (some "9") "Keep" (some 4) "shopA")
     (by decide) (by decide)).1⟩

/-!  ## Merchant scoping lemmas -/

lemma keyMatch_filter_split (sid domain : String) (rows : List DBProduct) :
    rows.filter (keyMatch sid domain) =
      (rows.filter (fun r => r.store_domain == domain)).filter
        (fun r => r.shopify_id == some sid) := by
  rw [List.filter_filter]
  rfl

lemma mem_insertByIdDesc {r a : DBProduct} :
    ∀ {l : List DBProduct}, a ∈ insertByIdDesc r l ↔ a = r ∨ a ∈ l := by
  intro l
  induction l with
  | nil => simp [insertByIdDesc]
  | cons x xs ih =>
    unfold insertByIdDesc
    by_cases hx : x.id ≤ r.id
    · simp [hx]
    · simp only [if_neg hx, List.mem_cons, ih]
      tauto

lemma mem_sortByIdDesc {a : DBProduct} :
    ∀ {l : List DBProduct}, a ∈ sortByIdDesc l ↔ a ∈ l := by
  intro l
  induction l with
  | nil => simp [sortByIdDesc]
  | cons x xs ih =>
    unfold sortByIdDesc
    rw [List.mem_cons, mem_insertByIdDesc, ih]

lemma saveStep_nonint (domain : String) (acc1 acc2 : SaveAcc) (pe : ShopifyEdge)
    (hrows : acc1.st.rows.filter (fun r => r.store_domain == domain) =
        acc2.st.rows.filter (fun r => r.store_domain == domain))
    (hnext : acc1.st.nextId = acc2.st.nextId)
    (hsaved : acc1.saved = acc2.saved)
    (hupd : acc1.updated = acc2.updated)
    (herr : acc1.errors = acc2.errors)
    (htc : acc1.titleChanges = acc2.titleChanges)
    (hic : acc1.inventoryChanges = acc2.inventoryChanges) :
    (saveStep domain acc1 pe).st.rows.filter
        (fun r => r.store_domain == domain) =
      (saveStep domain acc2 pe).st.rows.filter
        (fun r => r.store_domain == domain) ∧
    (saveStep domain acc1 pe).st.nextId = (saveStep domain acc2 pe).st.nextId ∧
    (saveStep domain acc1 pe).saved = (saveStep domain acc2 pe).saved ∧
    (saveStep domain acc1 pe).updated = (saveStep domain acc2 pe).updated ∧
    (saveStep domain acc1 pe).errors = (saveStep domain acc2 pe).errors ∧
    (saveStep domain acc1 pe).titleChanges =
      (saveStep domain acc2 pe).titleChanges ∧
    (saveStep domain acc1 pe).inventoryChanges =
      (saveStep domain acc2 pe).inventoryChanges := by
  unfold saveStep
  dsimp only []
  cases he : extractTruthy pe.node.id with
  | none =>
    dsimp only []
    exact ⟨hrows, hnext, hsaved, hupd, by rw [herr], htc, hic⟩
  | some sid =>
    dsimp only []
    have hex : acc1.st.rows.filter (keyMatch sid domain) =
        acc2.st.rows.filter (keyMatch sid domain) := by
      rw [keyMatch_filter_split, keyMatch_filter_split, hrows]
    cases hex1 : acc1.st.rows.filter (keyMatch sid domain) with
    | nil =>
      have hex2 : acc2.st.rows.filter (keyMatch sid domain) = [] := by
        rw [← hex, hex1]
      rw [hex2]
      dsimp only []
      refine ⟨?_, by rw [hnext], by rw [hsaved], hupd, herr, htc, hic⟩
      rw [List.filter_append, List.filter_append, hrows, hnext]
    | cons ex t =>
      have hex2 : acc2.st.rows.filter (keyMatch sid domain) = ex :: t := by
        rw [← hex, hex1]
      rw [hex2]
      dsimp only []
      have hq : ∀ r, (fun r => r.store_domain == domain)
          ((fun r => if keyMatch sid domain r then applyNode pe.node r
            else r) r) = (fun r => r.store_domain == domain) r := by
        intro r
        dsimp only []
        by_cases hk : keyMatch sid domain r = true
        · rw [if_pos hk]; rfl
        · rw [if_neg hk]
      refine ⟨?_, hnext, hsaved, by rw [hupd], herr, by rw [htc], by rw [hic]⟩
      rw [filter_map_comm _ _ hq, filter_map_comm _ _ hq, hrows]

lemma saveFold_nonint (domain : String) :
    ∀ (products : List ShopifyEdge) (acc1 acc2 : SaveAcc),
    acc1.st.rows.filter (fun r => r.store_domain == domain) =
      acc2.st.rows.filter (fun r => r.store_domain == domain) →
    acc1.st.nextId = acc2.st.nextId →
    acc1.saved = acc2.saved → acc1.updated = acc2.updated →
    acc1.errors = acc2.errors → acc1.titleChanges = acc2.titleChanges →
    acc1.inventoryChanges = acc2.inventoryChanges →
    (products.foldl (saveStep domain) acc1).st.rows.filter
        (fun r => r.store_domain == domain) =
      (products.foldl (saveStep domain) acc2).st.rows.filter
        (fun r => r.store_domain == domain) ∧
    (products.foldl (saveStep domain) acc1).st.nextId =
      (products.foldl (saveStep domain) acc2).st.nextId ∧
    (products.foldl (saveStep domain) acc1).saved =
      (products.foldl (saveStep domain) acc2).saved ∧
    (products.foldl (saveStep domain) acc1).updated =
      (products.foldl (saveStep domain) acc2).updated ∧
    (products.foldl (saveStep domain) acc1).errors =
      (products.foldl (saveStep domain) acc2).errors ∧
    (products.foldl (saveStep domain) acc1).titleChanges =
      (products.foldl (saveStep domain) acc2).titleChanges ∧
    (products.foldl (saveStep domain) acc1).inventoryChanges =
      (products.foldl (saveStep domain) acc2).inventoryChanges := by
  intro products
  induction products with
  | nil =>
    intro acc1 acc2 h1 h2 h3 h4 h5 h6 h7
    exact ⟨h1, h2, h3, h4, h5, h6, h7⟩
  | cons pe rest ih =>
    intro acc1 acc2 h1 h2 h3 h4 h5 h6 h7
    obtain ⟨g1, g2, g3, g4, g5, g6, g7⟩ :=
      saveStep_nonint domain acc1 acc2 pe h1 h2 h3 h4 h5 h6 h7
    rw [List.foldl_cons, List.foldl_cons]
    exact ih (saveStep domain acc1 pe) (saveStep domain acc2 pe)
      g1 g2 g3 g4 g5 g6 g7

/-!  ## Claim C9 -/

/-- C9: every Local Store operation of a reconciliation run is scoped by the
merchant key: a run for `domain` leaves the rows of any other store `B`
exactly as they were (no modification, insertion or deletion of another
merchant's rows), its entire outcome — final `domain` rows, counters,
aggregate result — depends only on the `domain`-scoped rows of the prior
state (so rows of other merchants are never read), and the local snapshot
listing returns only rows of the requested store. -/
theorem merchant_scoped_operations :
    ∀ (st1 st2 : DBState) (domain B : String) (products : List ShopifyEdge)
      (tOut iOut : Nat → PushOutcome),
    B ≠ domain →
    st1.rows.filter (fun r => r.store_domain == domain) =
      st2.rows.filter (fun r => r.store_domain == domain) →
    st1.nextId = st2.nextId →
    ((runAction st1 domain products tOut iOut).2.rows.filter
        (fun r => r.store_domain == B) =
      st1.rows.filter (fun r => r.store_domain == B)) ∧
    ((runAction st1 domain products tOut iOut).2.rows.filter
        (fun r => r.store_domain == domain) =
      (runAction st2 domain products tOut iOut).2.rows.filter
        (fun r => r.store_domain == domain)) ∧
    (runAction st1 domain products tOut iOut).1 =
      (runAction st2 domain products tOut iOut).1 ∧
    getAllProducts domain st1 = getAllProducts domain st2 ∧
    (getAllProducts B st1).all (fun r => r.store_domain == B) = true := by
  intro st1 st2 domain B products tOut iOut hB h12 hn12
  have hga : getAllProducts domain st1 = getAllProducts domain st2 := by
    unfold getAllProducts
    rw [h12]
  have hsave := saveFold_nonint domain products
    ⟨st1, 0, 0, 0, [], []⟩ ⟨st2, 0, 0, 0, [], []⟩ h12 hn12 rfl rfl rfl rfl rfl
  have hrw1 : (runAction st1 domain products tOut iOut).2 =
      (products.foldl (saveStep domain) ⟨st1, 0, 0, 0, [], []⟩).st := rfl
  have hrw2 : (runAction st2 domain products tOut iOut).2 =
      (products.foldl (saveStep domain) ⟨st2, 0, 0, 0, [], []⟩).st := rfl
  have hBframe := saveFold_filter_frame domain
    (fun r => r.store_domain == B) (fun p r => rfl) products
    ⟨st1, 0, 0, 0, [], []⟩ ?_
  · refine ⟨?_, ?_, ?_, hga, ?_⟩
    · rw [hrw1]
      exact hBframe
    · rw [hrw1, hrw2]
      exact hsave.1
    · show (⟨true,
        (pushLoop tOut (detectChanges (getAllProducts domain st1)
          products domain).1 0).1,
        (pushLoop iOut (detectChanges (getAllProducts domain st1)
          products domain).2 0).1,
        (pushLoop tOut (detectChanges (getAllProducts domain st1)
          products domain).1 0).2 +
        (pushLoop iOut (detectChanges (getAllProducts domain st1)
          products domain).2 0).2,
        (products.foldl (saveStep domain) ⟨st1, 0, 0, 0, [], []⟩).saved,
        (products.foldl (saveStep domain) ⟨st1, 0, 0, 0, [], []⟩).updated,
        (products.foldl (saveStep domain) ⟨st1, 0, 0, 0, [], []⟩).errors⟩ :
          ActionResult) = _
      rw [hga, hsave.2.2.1, hsave.2.2.2.1, hsave.2.2.2.2.1]
      rfl
    · rw [List.all_eq_true]
      intro r hr
      have hm := mem_sortByIdDesc.mp hr
      exact (List.mem_filter.mp hm).2
  · intro pe _ sid _
    constructor
    · intro n
      have hdb : (newRow n sid domain pe.node).store_domain = domain := rfl
      simp [hdb, Ne.symm hB]
    · intro r hr
      have hrB : r.store_domain = B := beq_iff_eq.mp hr
      simp [keyMatch, hrB, hB]

/-- Witness for C9 at a concrete input. -/
theorem merchant_scoped_operations_witness :
    ((runAction ⟨[mkRow 1 (some "9") "Other" (some 1) "shopB"], 5⟩ "shopA"
        [mkEdge (some "2") "X" (some 1)]
        (fun _ => PushOutcome.ok) (fun _ => PushOutcome.ok)).2.rows.filter
        (fun r => r.store_domain == "shopB") =
      ([mkRow 1 (some "9") "Other" (some 1) "shopB"].filter
        (fun r => r.store_domain == "shopB"))) ∧
    ((runAction ⟨[mkRow 1 (some "9") "Other" (some 1) "shopB"], 5⟩ "shopA"
        [mkEdge (some "2") "X" (some 1)]
        (fun _ => PushOutcome.ok) (fun _ => PushOutcome.ok)).2.rows.filter
        (fun r => r.store_domain == "shopA") =
      (runAction ⟨[], 5⟩ "shopA" [mkEdge (some "2") "X" (some 1)]
        (fun _ => PushOutcome.ok) (fun _ => PushOutcome.ok)).2.rows.filter
        (fun r => r.store_domain == "shopA")) ∧
    (runAction ⟨[mkRow 1 (some "9") "Other" (some 1) "shopB"], 5⟩ "shopA"
        [mkEdge (some "2") "X" (some 1)]
        (fun _ => PushOutcome.ok) (fun _ => PushOutcome.ok)).1 =
      (runAction ⟨[], 5⟩ "shopA" [mkEdge (some "2") "X" (some 1)]
        (fun _ => PushOutcome.ok) (fun _ => PushOutcome.ok)).1 ∧
    getAllProducts "shopA" ⟨[mkRow 1 (some "9") "Other" (some 1) "shopB"], 5⟩ =
      getAllProducts "shopA" ⟨[], 5⟩ ∧
    (getAllProducts "shopB"
        ⟨[mkRow 1 (some "9") "Other" (some 1) "shopB"], 5⟩).all
        (fun r => r.store_domain == "shopB") = true :=
  merchant_scoped_operations
    ⟨[mkRow 1 (some "9") "Other" (some 1) "shopB"], 5⟩ ⟨[], 5⟩
    "shopA" "shopB" [mkEdge (some "2") "X" (some 1)]
    (fun _ => PushOutcome.ok) (fun _ => PushOutcome.ok)
    (by decide) (by decide) (by decide)

/-!  ## Push-loop lemmas -/

lemma pushLoop_total {α : Type} (outs : Nat → PushOutcome) :
    ∀ (l : List α) (i : Nat),
      (pushLoop outs l i).1 + (pushLoop outs l i).2 = l.length := by
  intro l
  induction l with
  | nil => intro i; rfl
  | cons x xs ih =>
    intro i
    unfold pushLoop
    dsimp only []
    have hx := ih (i + 1)
    cases outs i <;> dsimp only [] <;> simp only [List.length_cons] <;> omega

lemma pushLoop_errors {α : Type} (outs : Nat → PushOutcome) :
    ∀ (l : List α) (i : Nat),
      (pushLoop outs l i).2 =
        (List.range l.length).countP
          (fun j => !(outs (i + j) == PushOutcome.ok)) := by
  intro l
  induction l with
  | nil => intro i; rfl
  | cons x xs ih =>
    intro i
    unfold pushLoop
    dsimp only []
    rw [List.length_cons, List.range_succ_eq_map, List.countP_cons,
        List.countP_map]
    have hcomp : ((fun j => !(outs (i + j) == PushOutcome.ok)) ∘ Nat.succ) =
        (fun j => !(outs ((i + 1) + j) == PushOutcome.ok)) := by
      funext j
      have : i + Nat.succ j = (i + 1) + j := by omega
      simp [Function.comp, this]
    rw [hcomp, ← ih (i + 1)]
    cases houts : outs i <;> simp [houts]

/-!  ## Claim C8 -/

/-- C8: per-record push failures never abort a reconciliation run.  For
every delta list and every assignment of per-call outcomes, the push loop
processes every delta (successes plus errors add up to the list length),
each non-successful call — returned failure or thrown exception alike —
increments the error counter by exactly one, the unconditional overwrite
phase then runs on the pre-run store state whatever the outcomes were, and
the caller receives a single aggregate result object with `success = true`
rather than any per-record exception. -/
theorem per_record_failures_never_abort :
    ∀ (tcs : List TitleChange) (ics : List InventoryChange)
      (tOut iOut : Nat → PushOutcome) (st : DBState) (domain : String)
      (products : List ShopifyEdge),
    ((pushLoop tOut tcs 0).1 + (pushLoop tOut tcs 0).2 = tcs.length) ∧
    ((pushLoop tOut tcs 0).2 =
      (List.range tcs.length).countP (fun j => !(tOut j == PushOutcome.ok))) ∧
    ((pushLoop iOut ics 0).1 + (pushLoop iOut ics 0).2 = ics.length) ∧
    ((pushLoop iOut ics 0).2 =
      (List.range ics.length).countP (fun j => !(iOut j == PushOutcome.ok))) ∧
    ((runAction st domain products tOut iOut).2 =
      (saveProductsToDB products domain st).st) ∧
    ((runAction st domain products tOut iOut).1.pushErrors =
      (pushLoop tOut
        (detectChanges (getAllProducts domain st) products domain).1 0).2 +
      (pushLoop iOut
        (detectChanges (getAllProducts domain st) products domain).2 0).2) ∧
    ((runAction st domain products tOut iOut).1.success = true) := by
  intro tcs ics tOut iOut st domain products
  have ht := pushLoop_errors tOut tcs 0
  have hi := pushLoop_errors iOut ics 0
  have htz : (fun j => !(tOut (0 + j) == PushOutcome.ok)) =
      (fun j => !(tOut j == PushOutcome.ok)) := by
    funext j
    rw [Nat.zero_add]
  have hiz : (fun j => !(iOut (0 + j) == PushOutcome.ok)) =
      (fun j => !(iOut j == PushOutcome.ok)) := by
    funext j
    rw [Nat.zero_add]
  refine ⟨pushLoop_total tOut tcs 0, ?_, pushLoop_total iOut ics 0, ?_,
    rfl, rfl, rfl⟩
  · rw [ht, htz]
  · rw [hi, hiz]

/-!  ## Claim C5 -/

lemma jsOrInt_some_zero (v : Int) : jsOrInt (some v) 0 = v := by
  unfold jsOrInt
  dsimp only []
  by_cases hv : v = 0
  · rw [if_pos hv, hv]
  · rw [if_neg hv]

/-- C5: when the variant query for an inventory push returns zero variants,
the push records a failure for that delta (`success = false` with the
"No variants found for product" error) and issues no call at all to the
set-inventory endpoint. -/
theorem zero_variants_records_failure :
    ∀ (rows : List DBProduct) (productId : Nat) (domain : String)
      (row : DBProduct) (vResp : VariantsResp) (sResp : SetInvResp),
    lookupProduct rows productId domain = some row →
    vResp.errors = false →
    vResp.variants = some [] →
    (syncInventoryToShopify rows productId domain vResp sResp).1.success =
      false ∧
    (syncInventoryToShopify rows productId domain vResp sResp).1.error =
      some "No variants found for product" ∧
    (syncInventoryToShopify rows productId domain vResp sResp).2.filter
      isSetInventory = [] := by
  intro rows pid domain row v s hl hv he
  unfold syncInventoryToShopify
  rw [hl]
  dsimp only []
  rw [hv]
  simp only [Bool.false_eq_true, if_false]
  rw [he]
  dsimp only []
  simp [isSetInventory]

/-- Witness for C5 at a concrete input. -/
theorem zero_variants_records_failure_witness :
    (syncInventoryToShopify [mkRow 1 (some "7") "T" (some 5) "shopA"] 1
        "shopA" ⟨false, none, some []⟩ ⟨false, none, []⟩).1.success = false ∧
    (syncInventoryToShopify [mkRow 1 (some "7") "T" (some 5) "shopA"] 1
        "shopA" ⟨false, none, some []⟩ ⟨false, none, []⟩).1.error =
      some "No variants found for product" ∧
    (syncInventoryToShopify [mkRow 1 (some "7") "T" (some 5) "shopA"] 1
        "shopA" ⟨false, none, some []⟩ ⟨false, none, []⟩).2.filter
      isSetInventory = [] :=
  zero_variants_records_failure [mkRow 1 (some "7") "T" (some 5) "shopA"] 1
    "shopA" (mkRow 1 (some "7") "T" (some 5) "shopA")
    ⟨false, none, some []⟩ ⟨false, none, []⟩
    (by decide) (by decide) (by decide)

/-!  ## Claim C10 -/

/-- C10: every `(inventoryItemId, locationId, quantity)` tuple sent by an
inventory push that reaches the set-inventory call uses the hard-coded
location id `gid://shopify/Location/109904462187` — the same for every
merchant key, which is quantified arbitrarily here — and its quantity
equals the stored (non-null) local `inventory_quantity` of the pushed
product. -/
theorem inventory_push_location_and_quantity :
    ∀ (rows : List DBProduct) (productId : Nat) (domain : String)
      (row : DBProduct) (v : Int) (vResp : VariantsResp) (sResp : SetInvResp)
      (qs : List QuantityEntry),
    lookupProduct rows productId domain = some row →
    row.inventory_quantity = some v →
    RemoteCall.setInventory qs ∈
      (syncInventoryToShopify rows productId domain vResp sResp).2 →
    qs.all (fun q => q.locationId == "gid://shopify/Location/109904462187" &&
      q.quantity == v) = true := by
  intro rows pid domain row v vR sR qs hl hinv hmem
  unfold syncInventoryToShopify at hmem
  rw [hl] at hmem
  dsimp only [] at hmem
  by_cases hve : vR.errors = true
  · rw [if_pos hve] at hmem
    exact RemoteCall.noConfusion (List.mem_singleton.mp hmem)
  · rw [if_neg hve] at hmem
    cases hvar : vR.variants with
    | none =>
      rw [hvar] at hmem
      dsimp only [] at hmem
      exact RemoteCall.noConfusion (List.mem_singleton.mp hmem)
    | some l =>
      rw [hvar] at hmem
      dsimp only [] at hmem
      by_cases hle : l.isEmpty = true
      · rw [if_pos hle] at hmem
        exact RemoteCall.noConfusion (List.mem_singleton.mp hmem)
      · rw [if_neg hle] at hmem
        have hqs : qs = l.map (fun var =>
            { inventoryItemId := var.inventoryItemId
              locationId := "gid://shopify/Location/" ++ locationIdConst
              quantity := jsOrInt row.inventory_quantity 0 }) := by
          by_cases hse : sR.errors = true
          · rw [if_pos hse] at hmem
            simp at hmem
            exact hmem
          · rw [if_neg hse] at hmem
            cases hu : sR.userErrors with
            | nil =>
              rw [hu] at hmem
              dsimp only [] at hmem
              simp at hmem
              exact hmem
            | cons e es =>
              rw [hu] at hmem
              dsimp only [] at hmem
              simp at hmem
              exact hmem
        rw [hqs, List.all_eq_true]
        intro q hq
        obtain ⟨var, _, hvq⟩ := List.mem_map.mp hq
        rw [← hvq]
        dsimp only []
        rw [hinv, jsOrInt_some_zero]
        simp [locationIdConst]

/-- Witness for C10 at a concrete input. -/
theorem inventory_push_location_and_quantity_witness :
    ([⟨"item1", "gid://shopify/Location/" ++ locationIdConst, 5⟩] :
        List QuantityEntry).all
      (fun q => q.locationId == "gid://shopify/Location/109904462187" &&
        q.quantity == 5) = true :=
  inventory_push_location_and_quantity
    [mkRow 1 (some "7") "T" (some 5) "shopA"] 1 "shopA"
    (mkRow 1 (some "7") "T" (some 5) "shopA") 5
    ⟨false, none, some [⟨"item1"⟩]⟩ ⟨false, none, []⟩
    [⟨"item1", "gid://shopify/Location/" ++ locationIdConst, 5⟩]
    (by decide) (by decide) (by decide)
